import Mathlib

/-!
Verification of the enhanced-word-live document server against its
natural-language specification.  The Python sources under
`word_document_server/` are shallowly embedded as executable Lean
definitions: paragraphs are lists of runs, the session manager is a pair
of an association list and an active pointer, XML trees are a nested
inductive, and the byte-level SHA-256 of `hashlib` is implemented in
full.  Each claim of the specification is then settled by a theorem
about these definitions.
-/

/- ## Basic string helpers (Python semantics)

Python strings are sequences of code points; `String.data` gives the
same view.  Lengths and offsets below always count code points. -/

/-- List of characters of a string, the view on which all offset
arithmetic is done (matches Python indexing by code point). -/
def strChars (s : String) : List Char := s.data

/-- String from a character list. -/
def strOfChars (cs : List Char) : String := String.mk cs

/-- Whether the first list starts with the second one. -/
def listStartsWith : List Char → List Char → Bool
  | _, [] => true
  | [], _ :: _ => false
  | a :: as, b :: bs => a = b && listStartsWith as bs

/-- Whether `needle` occurs anywhere in `hay` (Python's `in` on strings). -/
def listContainsSub (hay needle : List Char) : Bool :=
  match hay with
  | [] => listStartsWith [] needle
  | _ :: rest => listStartsWith hay needle || listContainsSub rest needle

/-- Python `needle in hay` for strings. -/
def pyIn (needle hay : String) : Bool := listContainsSub hay.data needle.data

/-- Python `str.lower()` (ASCII part; all inputs used here are ASCII). -/
def pyLower (s : String) : String := strOfChars (s.data.map Char.toLower)

/-- ASCII whitespace stripped by Python `str.strip()`. -/
def isPySpace (c : Char) : Bool :=
  c = ' ' || c = '\t' || c = '\n' || c = '\r' || c = '\x0b' || c = '\x0c'

/-- Python `str.strip()` with no argument (ASCII whitespace; every input
used in this development is ASCII). -/
def pyStrip (s : String) : String :=
  strOfChars (((s.data.dropWhile isPySpace).reverse.dropWhile isPySpace).reverse)

/-- Python `str.startswith`. -/
def pyStartsWith (s pre : String) : Bool := listStartsWith s.data pre.data

/-- Python `str.endswith`. -/
def pyEndsWith (s suf : String) : Bool := listStartsWith s.data.reverse suf.data.reverse

/-- Python `sep.join(parts)`. -/
def pyJoin (sep : String) (parts : List String) : String := String.intercalate sep parts

/-- Python `os.path.basename` for forward-slash paths: the suffix after
the last slash. -/
def pyBasename (s : String) : String :=
  strOfChars ((s.data.reverse.takeWhile (fun c => c ≠ '/')).reverse)

/-- Word character of the regex class backslash-w (ASCII part, as used by
the literal word-boundary patterns built in `content_tools`). -/
def isWordChar (c : Char) : Bool := c.isAlphanum || c = '_'

/- ## re.finditer for the patterns built by `_enhanced_replace_in_paragraphs`

In literal mode the code compiles `re.escape(find_text)`, optionally
wrapped in word boundaries.  For such patterns `finditer` is a plain
left-to-right non-overlapping scan; the two functions below reproduce it
(the regex pattern language itself is not needed for a literal). -/

/-- Non-overlapping left-to-right occurrences of a literal needle,
as `(start, end)` offsets.  `fuel` bounds the recursion by the length of
the remaining haystack. -/
def litFinditerAux : Nat → List Char → List Char → Nat → List (Nat × Nat)
  | 0, _, _, _ => []
  | _, _, [], _ => []
  | fuel + 1, needle, c :: rest, i =>
    if needle ≠ [] && listStartsWith (c :: rest) needle then
      (i, i + needle.length) ::
        litFinditerAux fuel needle (List.drop (needle.length - 1) rest) (i + needle.length)
    else
      litFinditerAux fuel needle rest (i + 1)

/-- Word-boundary test between an optional left character and an optional
right character (absent characters count as non-word). -/
def atBoundary (left right : Option Char) : Bool :=
  (match left with | some c => isWordChar c | none => false) !=
  (match right with | some c => isWordChar c | none => false)

/-- Non-overlapping scan for a literal wrapped in word-boundary anchors,
tracking the character just left of the scan position. -/
def wordFinditerAux : Nat → List Char → List Char → Option Char → Nat → List (Nat × Nat)
  | 0, _, _, _, _ => []
  | _, _, [], _, _ => []
  | fuel + 1, needle, c :: rest, prev, i =>
    let hay := c :: rest
    let fits := needle ≠ [] && listStartsWith hay needle &&
      atBoundary prev (some c) &&
      atBoundary (needle.getLast?) ((hay.drop needle.length).head?)
    if fits then
      (i, i + needle.length) ::
        wordFinditerAux fuel needle (List.drop (needle.length - 1) rest)
          needle.getLast? (i + needle.length)
    else
      wordFinditerAux fuel needle rest (some c) (i + 1)

/-- Matches of `find_text` in `hay` for the literal (non-regex) mode of
`_enhanced_replace_in_paragraphs`: `re.escape(find_text)`, optional
word-boundary anchors, optional `re.IGNORECASE`. -/
def findLiteralMatches (findText : String) (matchCase wholeWords : Bool)
    (hay : String) : List (Nat × Nat) :=
  let n := if matchCase then findText.data else findText.data.map Char.toLower
  let h := if matchCase then hay.data else hay.data.map Char.toLower
  if wholeWords then wordFinditerAux (h.length + 1) n h none 0
  else litFinditerAux (h.length + 1) n h 0

/- ## Runs and character formatting (`docx` runs as used by `content_tools`) -/

/-- An RGB colour triple (`docx.shared.RGBColor`). -/
structure Rgb where
  r : Nat
  g : Nat
  b : Nat
deriving DecidableEq, Repr

/-- One `docx` run: a text span plus the character-format attributes the
replacement code reads and writes.  `none` is Python `None` (inherit). -/
structure Run where
  text : String
  bold : Option Bool := none
  italic : Option Bool := none
  underline : Option Bool := none
  fontName : Option String := none
  fontSize : Option Nat := none
  color : Option Rgb := none
deriving DecidableEq, Repr

/-- Fresh run created by `para.add_run(text)`: appended at the end of the
paragraph, with every format attribute unset. -/
def addRun (text : String) : Run := { text := text }

/-- Concatenation of a paragraph's run texts (`para.text`). -/
def paraTextOfRuns (runs : List Run) : String :=
  String.join (runs.map Run.text)

/-- The 18-entry named colour table of `_apply_color_to_run`. -/
def colorMap : List (String × Rgb) :=
  [("red", ⟨255, 0, 0⟩), ("blue", ⟨0, 0, 255⟩), ("green", ⟨0, 128, 0⟩),
   ("yellow", ⟨255, 255, 0⟩), ("black", ⟨0, 0, 0⟩), ("gray", ⟨128, 128, 128⟩),
   ("white", ⟨255, 255, 255⟩), ("purple", ⟨128, 0, 128⟩), ("orange", ⟨255, 165, 0⟩),
   ("brown", ⟨165, 42, 42⟩), ("pink", ⟨255, 192, 203⟩), ("cyan", ⟨0, 255, 255⟩),
   ("magenta", ⟨255, 0, 255⟩), ("lime", ⟨0, 255, 0⟩), ("navy", ⟨0, 0, 128⟩),
   ("maroon", ⟨128, 0, 0⟩), ("olive", ⟨128, 128, 0⟩), ("teal", ⟨0, 128, 128⟩)]

/-- Value of one hex digit, `none` when the character is not a hex digit
(Python `int(_, 16)` raises there, caught by the fallback). -/
def hexDigit? (c : Char) : Option Nat :=
  if c.isDigit then some (c.toNat - 48)
  else if 'a' ≤ c ∧ c ≤ 'f' then some (c.toNat - 87)
  else if 'A' ≤ c ∧ c ≤ 'F' then some (c.toNat - 55)
  else none

/-- Python `int(s, 16)` for a two-character string, `none` on failure. -/
def hexPair? (a b : Char) : Option Nat := do
  let x ← hexDigit? a
  let y ← hexDigit? b
  pure (16 * x + y)

/-- The colour resolution of `_apply_color_to_run`: named table first,
then 7-character hash-hex parse, black on anything else or on error. -/
def resolveColor (color : String) : Rgb :=
  match colorMap.lookup (pyLower color) with
  | some rgb => rgb
  | none =>
    match color.data with
    | ['#', a, b, c, d, e, f] =>
      match hexPair? a b, hexPair? c d, hexPair? e f with
      | some r, some g, some bl => ⟨r, g, bl⟩
      | _, _, _ => ⟨0, 0, 0⟩
    | _ => ⟨0, 0, 0⟩

/-- `_apply_color_to_run` as a run transformation. -/
def applyColorToRun (run : Run) (color : String) : Run :=
  { run with color := some (resolveColor color) }

/-- The optional formatting arguments of `enhanced_search_and_replace`. -/
structure FmtArgs where
  bold : Option Bool := none
  italic : Option Bool := none
  underline : Option Bool := none
  color : Option String := none
  fontSize : Option Nat := none
  fontName : Option String := none
deriving Repr

/-- `_apply_formatting_to_run`: each attribute set only when requested;
`color`, `font_size` and `font_name` are guarded by Python truthiness. -/
def applyFormattingToRun (run : Run) (a : FmtArgs) : Run :=
  let run := match a.bold with | some b => { run with bold := some b } | none => run
  let run := match a.italic with | some b => { run with italic := some b } | none => run
  let run := match a.underline with | some b => { run with underline := some b } | none => run
  let run := match a.color with
    | some c => if c = "" then run else applyColorToRun run c
    | none => run
  let run := match a.fontSize with
    | some n => if n = 0 then run else { run with fontSize := some n }
    | none => run
  match a.fontName with
  | some nm => if nm = "" then run else { run with fontName := some nm }
  | none => run

/-- `_copy_run_formatting`: bold, italic and underline are copied
unconditionally (even when `None`); name, size and colour only when the
source value is truthy. -/
def copyRunFormatting (src tgt : Run) : Run :=
  let tgt := { tgt with bold := src.bold, italic := src.italic, underline := src.underline }
  let tgt := match src.fontName with
    | some nm => if nm = "" then tgt else { tgt with fontName := some nm }
    | none => tgt
  let tgt := match src.fontSize with
    | some n => if n = 0 then tgt else { tgt with fontSize := some n }
    | none => tgt
  match src.color with
  | some c => { tgt with color := some c }
  | none => tgt

/- ## The run surgery of `_enhanced_replace_in_paragraphs` -/

/-- The run-location walk: starting and ending run index and in-run
offset for the character span `[startPos, endPos)`, or `none` when the
walk fails to locate both ends (the code then skips the match). -/
def locateRuns (startPos endPos : Nat) :
    List Run → Nat → Nat → Option (Nat × Nat) → Option ((Nat × Nat) × (Nat × Nat))
  | [], _, _, _ => none
  | r :: rest, runIdx, curPos, startFound =>
    let len := r.text.data.length
    let startFound' :=
      if startFound.isNone && decide (curPos ≤ startPos) && decide (startPos < curPos + len)
      then some (runIdx, startPos - curPos) else startFound
    if curPos < endPos ∧ endPos ≤ curPos + len then
      match startFound' with
      | some s => some (s, (runIdx, endPos - curPos))
      | none => none
    else
      locateRuns startPos endPos rest (runIdx + 1) (curPos + len) startFound'

/-- Take the first `n` characters of a run text (Python slice `[:n]`). -/
def textTake (s : String) (n : Nat) : String := strOfChars (s.data.take n)

/-- Drop the first `n` characters of a run text (Python slice `[n:]`). -/
def textDrop (s : String) (n : Nat) : String := strOfChars (s.data.drop n)

/-- Replacement of one located match span inside a run list, exactly as
the per-match body of `_enhanced_replace_in_paragraphs`: the original
run(s) are truncated in place and the new run(s) created by
`para.add_run` are appended at the end of the paragraph. -/
def replaceMatchInRuns (applyFmt : Bool) (a : FmtArgs) (replText : String)
    (startPos endPos : Nat) (runs : List Run) : List Run :=
  match locateRuns startPos endPos runs 0 0 none with
  | none => runs
  | some ((si, so), (ei, eo)) =>
    if si = ei then
      match runs.get? si with
      | none => runs
      | some run =>
        let beforeText := textTake run.text so
        let afterText := textDrop run.text eo
        let runs1 := runs.set si { run with text := beforeText }
        let newRun :=
          if applyFmt then applyFormattingToRun (copyRunFormatting run (addRun replText)) a
          else copyRunFormatting run (addRun replText)
        let runs2 := runs1 ++ [newRun]
        if afterText ≠ "" then runs2 ++ [copyRunFormatting run (addRun afterText)]
        else runs2
    else
      let truncated := runs.enum.map (fun p =>
        let idx := p.1
        let run := p.2
        if idx = si then { run with text := textTake run.text so }
        else if idx = ei then { run with text := textDrop run.text eo }
        else if si < idx ∧ idx < ei then { run with text := "" }
        else run)
      match truncated.get? si with
      | none => truncated
      | some firstRun =>
        let newRun :=
          if applyFmt then applyFormattingToRun (copyRunFormatting firstRun (addRun replText)) a
          else copyRunFormatting firstRun (addRun replText)
        truncated ++ [newRun]

/-- Per-paragraph body of `_enhanced_replace_in_paragraphs` in literal
(non-regex) mode: matches are computed once on the paragraph text and
processed from right to left, each by the run surgery above.  Returns
the new run list and the number of matches counted. -/
def enhancedReplaceInParagraph (findText replText : String) (applyFmt : Bool)
    (a : FmtArgs) (matchCase wholeWords : Bool) (runs : List Run) :
    List Run × Nat :=
  let paraText := paraTextOfRuns runs
  let ms := findLiteralMatches findText matchCase wholeWords paraText
  if ms.isEmpty then (runs, 0)
  else
    (ms.reverse.foldl
      (fun rs m => replaceMatchInRuns applyFmt a replText m.1 m.2 rs) runs,
     ms.length)

/-- `_enhanced_replace_in_paragraphs` over a list of paragraphs. -/
def enhancedReplaceInParagraphs (findText replText : String) (applyFmt : Bool)
    (a : FmtArgs) (matchCase wholeWords : Bool) (paras : List (List Run)) :
    List (List Run) × Nat :=
  let results := paras.map (enhancedReplaceInParagraph findText replText applyFmt a matchCase wholeWords)
  (results.map Prod.fst, (results.map Prod.snd).sum)

/- ## File utilities (`utils/file_utils.py`) -/

/-- `ensure_docx_extension`. -/
def ensureDocxExtension (filename : String) : String :=
  if pyEndsWith filename ".docx" then filename else filename ++ ".docx"

/- ## Document session manager (`session_manager.py`)

The manager's dictionary is an insertion-ordered association list, as a
Python dict is; `next(iter(keys))` is the head of that list.  The
filesystem and the docx parser are abstracted as an environment of
functions, so that one open call can be studied under any disk state. -/

/-- Environment a call of `open_document` runs in: file existence,
parseability under `Document(...)`, and the metadata sources. -/
structure SessEnv where
  fileExists : String → Bool
  parses : String → Bool
  parseError : String → String
  mtime : String → String
  paraCount : String → Nat
  sectCount : String → Nat
  fileSize : String → Nat

/-- A `DocumentHandle` (the live-connection machinery, which none of the
four session operations touches, is carried as a plain flag). -/
structure DocHandle where
  filePath : String
  openedAt : String
  paragraphCount : Nat
  sectionCount : Nat
  fileSize : Nat
  websocketConnected : Bool := false
deriving DecidableEq, Repr

/-- The `DocumentSessionManager` state. -/
structure Session where
  docs : List (String × DocHandle)
  active : Option String
deriving DecidableEq, Repr

/-- Document ids currently registered, in insertion order. -/
def Session.ids (s : Session) : List String := s.docs.map Prod.fst

/-- The message `open_document` returns when the id is already in use. -/
def conflictMsg (documentId : String) : String :=
  "Error: Document ID '" ++ documentId ++
    "' is already in use. Use close_document() first or choose a different ID."

/-- `DocumentSessionManager.open_document`. -/
def openDocument (env : SessEnv) (s : Session) (documentId filePath : String) :
    Session × String :=
  if pyStrip documentId = "" then (s, "Error: document_id cannot be empty")
  else if pyStrip filePath = "" then (s, "Error: file_path cannot be empty")
  else
    let fp := ensureDocxExtension filePath
    if ¬ env.fileExists fp then
      (s, "Error: Document file '" ++ fp ++ "' does not exist")
    else if (s.docs.lookup documentId).isSome then
      (s, conflictMsg documentId)
    else if ¬ env.parses fp then
      (s, "Error: Failed to open document '" ++ fp ++ "': " ++ env.parseError fp)
    else
      let handle : DocHandle :=
        { filePath := fp, openedAt := env.mtime fp, paragraphCount := env.paraCount fp,
          sectionCount := env.sectCount fp, fileSize := env.fileSize fp }
      let active' := if s.active = none then some documentId else s.active
      ({ docs := s.docs ++ [(documentId, handle)], active := active' },
       "Successfully opened document '" ++ documentId ++ "' from '" ++ fp ++ "'")

/-- `DocumentSessionManager.close_document`. -/
def closeDocument (s : Session) (documentId : String) : Session × String :=
  match s.docs.lookup documentId with
  | none => (s, "Error: Document ID '" ++ documentId ++ "' not found in session")
  | some handle =>
    let docs' := s.docs.filter (fun p => p.1 ≠ documentId)
    let active' :=
      if s.active = some documentId then (docs'.head?.map Prod.fst) else s.active
    ({ docs := docs', active := active' },
     "Successfully closed document '" ++ documentId ++ "' (was '" ++ handle.filePath ++ "')")

/-- `DocumentSessionManager.set_active_document`. -/
def setActiveDocument (s : Session) (documentId : String) : Session × String :=
  if (s.docs.lookup documentId).isNone then
    (s, "Error: Document ID '" ++ documentId ++ "' not found in session")
  else
    let msg := match s.active with
      | some old => "Active document changed from '" ++ old ++ "' to '" ++ documentId ++ "'"
      | none => "Active document set to '" ++ documentId ++ "'"
    ({ s with active := some documentId }, msg)

/-- `DocumentSessionManager.close_all_documents`. -/
def closeAllDocuments (s : Session) : Session × String :=
  ({ docs := [], active := none },
   "Closed " ++ toString s.docs.length ++ " documents")

/-- `DocumentSessionManager.validate_document_id`. -/
def validateDocumentId (s : Session) (documentId : String) : String :=
  if documentId = "" then "Error: document_id parameter is required"
  else if (s.docs.lookup documentId).isNone then
    if s.docs.isEmpty then
      "Error: Document ID '" ++ documentId ++
        "' not found. No documents are currently open. Use open_document() first."
    else
      "Error: Document ID '" ++ documentId ++ "' not found. Available: " ++
        pyJoin ", " s.ids
  else ""

/-- `DocumentSessionManager.get_document_path`. -/
def getDocumentPath (s : Session) (documentId : String) : Option String :=
  (s.docs.lookup documentId).map DocHandle.filePath

/-- Session states reachable from the freshly constructed manager by any
sequence of the four session operations, under any disk states. -/
inductive ReachableSession : Session → Prop where
  | init : ReachableSession ⟨[], none⟩
  | openStep (env : SessEnv) (documentId filePath : String) {s : Session} :
      ReachableSession s → ReachableSession (openDocument env s documentId filePath).1
  | closeStep (documentId : String) {s : Session} :
      ReachableSession s → ReachableSession (closeDocument s documentId).1
  | setActiveStep (documentId : String) {s : Session} :
      ReachableSession s → ReachableSession (setActiveDocument s documentId).1
  | closeAllStep {s : Session} :
      ReachableSession s → ReachableSession (closeAllDocuments s).1

/-- The active-pointer invariant of the session manager: an active id
always names an open handle, and the pointer is clear only when nothing
is open. -/
def SessionInv (s : Session) : Prop :=
  (∀ a, s.active = some a → a ∈ s.ids) ∧ (s.active = none → s.docs = [])

/- ## Session-manager lemmas -/

theorem lookup_isSome_iff_mem (l : List (String × DocHandle)) (a : String) :
    (l.lookup a).isSome ↔ a ∈ l.map Prod.fst := by
  induction l with
  | nil => simp [List.lookup]
  | cons p t ih =>
    obtain ⟨k, v⟩ := p
    by_cases hk : a = k
    · subst hk
      simp [List.lookup]
    · have hbeq : (a == k) = false := beq_eq_false_iff_ne.2 hk
      simp [List.lookup, hbeq, hk, ih]

theorem mem_keys_filter (l : List (String × DocHandle)) (idd b : String) :
    b ∈ (l.filter fun p => p.1 ≠ idd).map Prod.fst ↔ b ∈ l.map Prod.fst ∧ b ≠ idd := by
  simp only [List.mem_map, List.mem_filter, decide_eq_true_eq]
  constructor
  · rintro ⟨p, ⟨hp, hne⟩, rfl⟩
    exact ⟨⟨p, hp, rfl⟩, hne⟩
  · rintro ⟨⟨p, hp, rfl⟩, hne⟩
    exact ⟨p, ⟨hp, hne⟩, rfl⟩

theorem sessionInv_open (env : SessEnv) (s : Session) (documentId filePath : String)
    (h : SessionInv s) : SessionInv (openDocument env s documentId filePath).1 := by
  unfold openDocument
  by_cases h1 : pyStrip documentId = ""
  · rw [if_pos h1]; exact h
  rw [if_neg h1]
  by_cases h2 : pyStrip filePath = ""
  · rw [if_pos h2]; exact h
  rw [if_neg h2]
  simp only
  by_cases h3 : env.fileExists (ensureDocxExtension filePath) = true
  · rw [if_neg (by simp [h3])]
    by_cases h4 : (s.docs.lookup documentId).isSome
    · rw [if_pos h4]; exact h
    rw [if_neg h4]
    by_cases h5 : env.parses (ensureDocxExtension filePath) = true
    · rw [if_neg (by simp [h5])]
      simp only
      constructor
      · intro a ha
        simp only [Session.ids, List.map_append, List.map_cons, List.map_nil,
          List.mem_append, List.mem_singleton] at *
        rcases hact : s.active with _ | b
        · rw [hact] at ha
          simp at ha
          exact Or.inr ha.symm
        · rw [hact] at ha
          simp at ha
          exact Or.inl (ha ▸ h.1 b hact)
      · intro ha
        simp only at ha
        rcases hact : s.active with _ | b
        · rw [hact] at ha
          simp at ha
        · rw [hact] at ha
          simp at ha
    · rw [if_pos (by simp [h5])]; exact h
  · rw [if_pos (by simp [h3])]; exact h

theorem sessionInv_close (s : Session) (documentId : String) (h : SessionInv s) :
    SessionInv (closeDocument s documentId).1 := by
  unfold closeDocument
  cases hl : s.docs.lookup documentId with
  | none => exact h
  | some handle =>
    simp only
    set L := s.docs.filter (fun p => p.1 ≠ documentId) with hL
    constructor
    · intro a ha
      simp only [Session.ids] at ha ⊢
      by_cases hact : s.active = some documentId
      · rw [if_pos hact] at ha
        cases hc : L with
        | nil => rw [hc] at ha; simp at ha
        | cons p t =>
          rw [hc] at ha
          simp only [List.head?] at ha
          have hp : p.1 = a := by simpa using ha
          rw [List.map_cons, hp]
          exact List.mem_cons_self a _
      · rw [if_neg hact] at ha
        have hmem := h.1 a ha
        have hne : a ≠ documentId := by
          intro he
          exact hact (he ▸ ha)
        rw [hL]
        exact (mem_keys_filter s.docs documentId a).2 ⟨hmem, hne⟩
    · intro ha
      simp only at ha ⊢
      by_cases hact : s.active = some documentId
      · rw [if_pos hact] at ha
        cases hc : L with
        | nil => rfl
        | cons p t => rw [hc] at ha; simp at ha
      · rw [if_neg hact] at ha
        have hdocs := h.2 ha
        rw [hdocs] at hl
        simp [List.lookup] at hl

theorem sessionInv_setActive (s : Session) (documentId : String) (h : SessionInv s) :
    SessionInv (setActiveDocument s documentId).1 := by
  unfold setActiveDocument
  split_ifs with h1
  · exact h
  · constructor
    · intro a ha
      simp only at ha
      have : documentId = a := by simpa using ha
      subst this
      have : (s.docs.lookup documentId).isSome := by
        cases hcase : s.docs.lookup documentId with
        | none => rw [hcase] at h1; simp at h1
        | some _ => simp
      exact (lookup_isSome_iff_mem s.docs documentId).1 this
    · intro ha
      simp at ha

theorem sessionInv_closeAll (s : Session) : SessionInv (closeAllDocuments s).1 := by
  constructor
  · intro a ha
    simp [closeAllDocuments] at ha
  · intro _
    rfl

theorem reachable_sessionInv {s : Session} (h : ReachableSession s) : SessionInv s := by
  induction h with
  | init => exact ⟨by intro a ha; simp at ha, fun _ => rfl⟩
  | openStep env documentId filePath _ ih => exact sessionInv_open env _ documentId filePath ih
  | closeStep documentId _ ih => exact sessionInv_close _ documentId ih
  | setActiveStep documentId _ ih => exact sessionInv_setActive _ documentId ih
  | closeAllStep _ _ => exact sessionInv_closeAll _

/- ## Concrete session states used by the session-manager claims -/

/-- Demo environment: every path exists and parses. -/
def demoEnv : SessEnv where
  fileExists := fun _ => true
  parses := fun _ => true
  parseError := fun _ => ""
  mtime := fun _ => "100.0"
  paraCount := fun _ => 3
  sectCount := fun _ => 1
  fileSize := fun _ => 1000

/-- Session after opening `main` from `a.docx` in the fresh manager. -/
def sMain : Session := (openDocument demoEnv ⟨[], none⟩ "main" "a").1

/-- Session after then opening `draft` from `b.docx`. -/
def sMainDraft : Session := (openDocument demoEnv sMain "draft" "b").1

/-- Claim C5: in every reachable session state the active id, if set,
names an open handle; the first document opened into an empty session
becomes active; closing the active document reassigns the pointer to a
remaining open handle or clears it when none remain; and
`close_all_documents` clears it. -/
theorem active_pointer_reachable_invariant :
    (∀ s, ReachableSession s → ∀ a, s.active = some a → a ∈ s.ids) ∧
    (∀ env s documentId filePath, ReachableSession s → s.docs = [] →
      (openDocument env s documentId filePath).1.docs ≠ [] →
      (openDocument env s documentId filePath).1.active = some documentId) ∧
    (∀ s documentId, ReachableSession s → s.active = some documentId →
      (((closeDocument s documentId).1.docs = [] →
          (closeDocument s documentId).1.active = none) ∧
        (∀ b, (closeDocument s documentId).1.active = some b →
          b ∈ (closeDocument s documentId).1.ids) ∧
        ((closeDocument s documentId).1.docs ≠ [] →
          ∃ b, (closeDocument s documentId).1.active = some b))) ∧
    (∀ s, (closeAllDocuments s).1.active = none) := by
  refine ⟨?_, ?_, ?_, ?_⟩
  · intro s hs a ha
    exact (reachable_sessionInv hs).1 a ha
  · intro env s documentId filePath hs hempty hne
    have hactnone : s.active = none := by
      cases hact : s.active with
      | none => rfl
      | some a =>
        have := (reachable_sessionInv hs).1 a hact
        rw [Session.ids, hempty] at this
        simp at this
    unfold openDocument at hne ⊢
    by_cases h1 : pyStrip documentId = ""
    · rw [if_pos h1] at hne; exact absurd hempty hne
    rw [if_neg h1] at hne ⊢
    by_cases h2 : pyStrip filePath = ""
    · rw [if_pos h2] at hne; exact absurd hempty hne
    rw [if_neg h2] at hne ⊢
    simp only at hne ⊢
    by_cases h3 : env.fileExists (ensureDocxExtension filePath) = true
    · rw [if_neg (by simp [h3])] at hne ⊢
      by_cases h4 : (s.docs.lookup documentId).isSome
      · rw [if_pos h4] at hne; exact absurd hempty hne
      rw [if_neg h4] at hne ⊢
      by_cases h5 : env.parses (ensureDocxExtension filePath) = true
      · rw [if_neg (by simp [h5])]
        simp [hactnone]
      · rw [if_pos (by simp [h5])] at hne; exact absurd hempty hne
    · rw [if_pos (by simp [h3])] at hne; exact absurd hempty hne
  · intro s documentId hs hact
    have hinv := reachable_sessionInv hs
    have hclosed := sessionInv_close s documentId hinv
    refine ⟨?_, fun b hb => hclosed.1 b hb, ?_⟩
    · intro hdocs
      cases hactive : (closeDocument s documentId).1.active with
      | none => rfl
      | some b =>
        have := hclosed.1 b hactive
        rw [Session.ids, hdocs] at this
        simp at this
    · intro hne
      cases hactive : (closeDocument s documentId).1.active with
      | some b => exact ⟨b, rfl⟩
      | none => exact absurd (hclosed.2 hactive) hne
  · intro s
    rfl

/-- Witness for C5: opening `main` then `draft` and closing the active
`main` leaves `draft` as a valid active handle, and closing everything
clears the pointer. -/
theorem active_pointer_reachable_invariant_witness :
    (∃ b, (closeDocument sMainDraft "main").1.active = some b) ∧
    (∀ b, (closeDocument sMainDraft "main").1.active = some b →
      b ∈ (closeDocument sMainDraft "main").1.ids) ∧
    (closeAllDocuments sMainDraft).1.active = none ∧
    sMain.active = some "main" := by
  have h := active_pointer_reachable_invariant
  have hreach : ReachableSession sMainDraft :=
    ReachableSession.openStep demoEnv "draft" "b"
      (ReachableSession.openStep demoEnv "main" "a" ReachableSession.init)
  have hact : sMainDraft.active = some "main" := by decide
  have hclose := h.2.2.1 sMainDraft "main" hreach hact
  refine ⟨hclose.2.2 (by decide), hclose.2.1, h.2.2.2 sMainDraft, ?_⟩
  have hinit : ReachableSession (⟨[], none⟩ : Session) := ReachableSession.init
  exact h.2.1 demoEnv ⟨[], none⟩ "main" "a" hinit rfl (by decide)

/- ## Claim C6: duplicate-id open -/

/-- Environment in which only `a.docx` exists. -/
def onlyAEnv : SessEnv where
  fileExists := fun p => p == "a.docx"
  parses := fun _ => true
  parseError := fun _ => ""
  mtime := fun _ => "100.0"
  paraCount := fun _ => 3
  sectCount := fun _ => 1
  fileSize := fun _ => 1000

/-- Session holding only `main`, opened from `a.docx` under `onlyAEnv`. -/
def sMainOnlyA : Session := (openDocument onlyAEnv ⟨[], none⟩ "main" "a").1

/-- Counterexample to claim C6 as stated: with id `main` already
registered, re-opening `main` from the nonexistent path `nope` fails
with the file-not-found message, not with the Conflict message — the
existence check runs before the id-conflict check. -/
theorem open_conflict_counterexample :
    (openDocument onlyAEnv sMainOnlyA "main" "nope").2 =
      "Error: Document file 'nope.docx' does not exist" ∧
    (openDocument onlyAEnv sMainOnlyA "main" "nope").2 ≠ conflictMsg "main" := by
  constructor
  · decide
  · decide

/- ## String-prefix lemmas used to separate the open-document messages -/

theorem strData_append (a b : String) : (a ++ b).data = a.data ++ b.data := by
  cases a
  cases b
  rfl

theorem string_append_assoc (a b c : String) : a ++ b ++ c = a ++ (b ++ c) := by
  cases a with
  | mk x =>
    cases b with
    | mk y =>
      cases c with
      | mk z =>
        show String.mk ((x ++ y) ++ z) = String.mk (x ++ (y ++ z))
        rw [List.append_assoc]

theorem listStartsWith_append_self (p r : List Char) : listStartsWith (p ++ r) p = true := by
  induction p with
  | nil => cases r <;> rfl
  | cons c cs ih => simp [listStartsWith, ih]

theorem listStartsWith_append_of_le (q r p : List Char) (h : p.length ≤ q.length) :
    listStartsWith (q ++ r) p = listStartsWith q p := by
  induction p generalizing q with
  | nil =>
    cases q with
    | nil => cases r <;> rfl
    | cons d ds => rfl
  | cons c cs ih =>
    cases q with
    | nil => simp at h
    | cons d ds =>
      simp only [List.cons_append, listStartsWith]
      exact congrArg (decide (d = c) && .) (ih ds (Nat.le_of_succ_le_succ h))

theorem pyStartsWith_append_self (a b : String) : pyStartsWith (a ++ b) a = true := by
  unfold pyStartsWith
  rw [strData_append]
  exact listStartsWith_append_self a.data b.data

theorem pyStartsWith_append_of_le (a b p : String) (h : p.data.length ≤ a.data.length) :
    pyStartsWith (a ++ b) p = pyStartsWith a p := by
  unfold pyStartsWith
  rw [strData_append]
  exact listStartsWith_append_of_le a.data b.data p.data h

theorem conflictMsg_startsWith (documentId : String) :
    pyStartsWith (conflictMsg documentId) "Error: Document I" = true := by
  have hsplit : conflictMsg documentId =
      "Error: Document I" ++ ("D '" ++ (documentId ++
        "' is already in use. Use close_document() first or choose a different ID.")) := by
    unfold conflictMsg
    rw [string_append_assoc]
    have hlit : ("Error: Document ID '" : String) = "Error: Document I" ++ "D '" := by decide
    rw [hlit, string_append_assoc]
  rw [hsplit]
  exact pyStartsWith_append_self _ _

theorem ne_conflictMsg_of_not_startsWith (s documentId : String)
    (h : pyStartsWith s "Error: Document I" = false) : s ≠ conflictMsg documentId := by
  intro he
  rw [he, conflictMsg_startsWith documentId] at h
  exact Bool.noConfusion h

theorem notFoundMsg_not_startsWith (fp : String) :
    pyStartsWith ("Error: Document file '" ++ fp ++ "' does not exist")
      "Error: Document I" = false := by
  rw [string_append_assoc]
  rw [pyStartsWith_append_of_le _ _ _ (by decide)]
  decide

/-- Claim C6 (amended): re-opening an already-registered id leaves the
session state unchanged for every file path; it returns the Conflict
message exactly when the stripped id and path are non-empty and the
extension-normalized path names an existing file, and on the other
paths it returns, respectively, the empty-document-id, the
empty-file-path, or the file-not-found message, all of which differ
from the Conflict message — those validations run before the
id-conflict check. -/
theorem open_conflict_amended (env : SessEnv) (s : Session) (documentId filePath : String)
    (hid : (s.docs.lookup documentId).isSome) :
    (openDocument env s documentId filePath).1 = s ∧
    ((openDocument env s documentId filePath).2 = conflictMsg documentId ↔
      (pyStrip documentId ≠ "" ∧ pyStrip filePath ≠ "" ∧
        env.fileExists (ensureDocxExtension filePath) = true)) ∧
    (pyStrip documentId = "" →
      (openDocument env s documentId filePath).2 = "Error: document_id cannot be empty") ∧
    (pyStrip documentId ≠ "" → pyStrip filePath = "" →
      (openDocument env s documentId filePath).2 = "Error: file_path cannot be empty") ∧
    (pyStrip documentId ≠ "" → pyStrip filePath ≠ "" →
      env.fileExists (ensureDocxExtension filePath) = false →
      (openDocument env s documentId filePath).2 =
        "Error: Document file '" ++ ensureDocxExtension filePath ++ "' does not exist") := by
  have hm1 : pyStrip documentId = "" →
      (openDocument env s documentId filePath).2 = "Error: document_id cannot be empty" := by
    intro h1
    unfold openDocument
    rw [if_pos h1]
  have hm2 : pyStrip documentId ≠ "" → pyStrip filePath = "" →
      (openDocument env s documentId filePath).2 = "Error: file_path cannot be empty" := by
    intro h1 h2
    unfold openDocument
    rw [if_neg h1, if_pos h2]
  have hm3 : pyStrip documentId ≠ "" → pyStrip filePath ≠ "" →
      env.fileExists (ensureDocxExtension filePath) = false →
      (openDocument env s documentId filePath).2 =
        "Error: Document file '" ++ ensureDocxExtension filePath ++ "' does not exist" := by
    intro h1 h2 h3
    unfold openDocument
    rw [if_neg h1, if_neg h2]
    simp only
    rw [if_pos (by simp [h3])]
  have hm4 : pyStrip documentId ≠ "" → pyStrip filePath ≠ "" →
      env.fileExists (ensureDocxExtension filePath) = true →
      (openDocument env s documentId filePath).2 = conflictMsg documentId := by
    intro h1 h2 h3
    unfold openDocument
    rw [if_neg h1, if_neg h2]
    simp only
    rw [if_neg (by simp [h3]), if_pos hid]
  refine ⟨?_, ⟨?_, ?_⟩, hm1, hm2, hm3⟩
  · unfold openDocument
    by_cases h1 : pyStrip documentId = ""
    · rw [if_pos h1]
    rw [if_neg h1]
    by_cases h2 : pyStrip filePath = ""
    · rw [if_pos h2]
    rw [if_neg h2]
    simp only
    by_cases h3 : env.fileExists (ensureDocxExtension filePath) = true
    · rw [if_neg (by simp [h3]), if_pos hid]
    · rw [if_pos (by simp [h3])]
  · intro hq
    by_cases h1 : pyStrip documentId = ""
    · rw [hm1 h1] at hq
      exact absurd hq (ne_conflictMsg_of_not_startsWith _ documentId (by decide))
    by_cases h2 : pyStrip filePath = ""
    · rw [hm2 h1 h2] at hq
      exact absurd hq (ne_conflictMsg_of_not_startsWith _ documentId (by decide))
    by_cases h3 : env.fileExists (ensureDocxExtension filePath) = true
    · exact ⟨h1, h2, h3⟩
    · have h3f : env.fileExists (ensureDocxExtension filePath) = false := by
        simpa using h3
      rw [hm3 h1 h2 h3f] at hq
      exact absurd hq
        (ne_conflictMsg_of_not_startsWith _ documentId (notFoundMsg_not_startsWith _))
  · rintro ⟨h1, h2, h3⟩
    exact hm4 h1 h2 h3

/-- Witness for the amended C6: re-opening `main` from the existing
`a.docx` leaves the one-document session untouched and reports the
Conflict message, while re-opening `main` from the nonexistent `nope`
still preserves the state but reports the file-not-found message. -/
theorem open_conflict_amended_witness :
    (openDocument onlyAEnv sMainOnlyA "main" "a").1 = sMainOnlyA ∧
    (openDocument onlyAEnv sMainOnlyA "main" "a").2 = conflictMsg "main" ∧
    (openDocument onlyAEnv sMainOnlyA "main" "nope").1 = sMainOnlyA ∧
    (openDocument onlyAEnv sMainOnlyA "main" "nope").2 =
      "Error: Document file '" ++ ensureDocxExtension "nope" ++ "' does not exist" := by
  have ha := open_conflict_amended onlyAEnv sMainOnlyA "main" "a" (by decide)
  have hb := open_conflict_amended onlyAEnv sMainOnlyA "main" "nope" (by decide)
  refine ⟨ha.1, (ha.2.1).mpr ⟨by decide, by decide, by decide⟩, hb.1, ?_⟩
  exact hb.2.2.2.2 (by decide) (by decide) (by decide)

/- ## Claims C1 and C2: text preservation of the run surgery -/

/-- A paragraph held in one single run, as `doc.add_paragraph(text)`
creates it, with two occurrences of the bracketed token `[x]`. -/
def braceParagraph : List Run := [addRun "Please review [x] and [x] carefully."]

/-- Claim C1 evaluated at a failing input: a formatting-only self
replacement of `[x]` (literal mode, `apply_formatting` with bold) must
leave the rendered text unchanged, but because `para.add_run` appends
the split-off runs at the end of the paragraph, the second processed
match lands after the text that follows it: the paragraph is reordered. -/
theorem enhanced_replace_text_corruption :
    paraTextOfRuns
        (enhancedReplaceInParagraph "[x]" "[x]" true { bold := some true }
          true false braceParagraph).1 =
      "Please review [x] carefully.[x] and " ∧
    "Please review [x] carefully.[x] and " ≠ "Please review [x] and [x] carefully." := by
  constructor
  · decide
  · decide

/-- A single-run paragraph with four bracketed tokens in sequence, the
shape of the repository's own corruption test document. -/
def multiTokenParagraph : List Run := [addRun "Multiple [a] [a] [a] [a] instances in sequence."]

/-- Claim C2 evaluated at a failing input: the four matches are indeed
processed right to left (`reversed(matches)`), but replacing the four
`[a]` tokens by `[b]` leaves only the rightmost replacement in place;
the other three are appended behind the paragraph tail, so the
occurrences lose their original relative positions. -/
theorem right_to_left_position_corruption :
    (findLiteralMatches "[a]" true false
        (paraTextOfRuns multiTokenParagraph)).reverse =
      [(21, 24), (17, 20), (13, 16), (9, 12)] ∧
    paraTextOfRuns
        (enhancedReplaceInParagraph "[a]" "[b]" false {} true false multiTokenParagraph).1 =
      "Multiple [b] instances in sequence.[b] [b] [b] " ∧
    "Multiple [b] instances in sequence.[b] [b] [b] " ≠
      "Multiple [b] [b] [b] [b] instances in sequence." := by
  refine ⟨by decide, by decide, by decide⟩

/- ## Session resolution (`utils/session_utils.py`) and the content tools -/

/-- Python truthiness of an optional string argument (`None` and the
empty string are falsy). -/
def pyTruthyOpt : Option String → Bool
  | none => false
  | some s => s ≠ ""

/-- `resolve_document_path`: document id first, legacy filename second. -/
def resolveDocumentPath (sess : Session) (documentId filename : Option String) :
    String × String :=
  if ¬ pyTruthyOpt documentId ∧ ¬ pyTruthyOpt filename then
    ("", "Error: Either 'document_id' or 'filename' parameter is required")
  else if pyTruthyOpt documentId ∧ pyTruthyOpt filename then
    let v := validateDocumentId sess (documentId.getD "")
    if v ≠ "" then ("", "Error: Both document_id and filename provided. " ++ v)
    else ((getDocumentPath sess (documentId.getD "")).getD "", "")
  else if pyTruthyOpt documentId then
    let v := validateDocumentId sess (documentId.getD "")
    if v ≠ "" then ("", v)
    else
      match getDocumentPath sess (documentId.getD "") with
      | none => ("", "Error: Could not retrieve file path for document_id '" ++
          documentId.getD "" ++ "'")
      | some fp =>
        if fp = "" then ("", "Error: Could not retrieve file path for document_id '" ++
          documentId.getD "" ++ "'")
        else (fp, "")
  else (ensureDocxExtension (pyStrip (filename.getD "")), "")

/-- Store of word documents on disk: path to list of paragraphs, each a
run list.  (Table cells, which `enhanced_search_and_replace` also
visits, are not populated in any document studied here.) -/
def DocStore : Type := List (String × List (List Run))

/-- Write back a document under its path. -/
def storeSet (store : DocStore) (fn : String) (paras : List (List Run)) : DocStore :=
  (store : List _).map (fun p => if p.1 = fn then (fn, paras) else p)

/-- Look a document up. -/
def storeGet (store : DocStore) (fn : String) : Option (List (List Run)) :=
  (store : List _).lookup fn

/-- `enhanced_search_and_replace` in literal mode (`use_regex=False`,
the mode every caller embedded here uses): resolution, validation,
existence and writability checks, the paragraph replacement pass, and
the composed status message.  `writable`/`writeErr` abstract
`check_file_writeable`. -/
def enhancedSearchAndReplace (sess : Session) (writable : String → Bool)
    (writeErr : String → String) (store : DocStore)
    (documentId filename : Option String) (findText replText : String)
    (applyFmt : Bool) (a : FmtArgs) (matchCase wholeWords : Bool) :
    DocStore × String :=
  let r := resolveDocumentPath sess documentId filename
  if r.2 ≠ "" then (store, r.2)
  else
    let fn := r.1
    if findText = "" then (store, "Error: find_text parameter is required")
    else if replText = "" then (store, "Error: replace_text parameter is required")
    else
      match storeGet store fn with
      | none => (store, "Document " ++ fn ++ " does not exist")
      | some paras =>
        if ¬ writable fn then
          (store, "Cannot modify document: " ++ writeErr fn ++
            ". Consider creating a copy first.")
        else
          let res := enhancedReplaceInParagraphs findText replText applyFmt a
            matchCase wholeWords paras
          if res.2 > 0 then
            (storeSet store fn res.1,
             "Replaced " ++ toString res.2 ++ " occurrence(s) of text '" ++ findText ++
               "'" ++ (if matchCase then "" else " (case-insensitive)") ++
               (if wholeWords then " (whole words only)" else "") ++
               " with '" ++ replText ++ "'" ++
               (if applyFmt then " with formatting" else "") ++ ".")
          else (store, "No occurrences of text '" ++ findText ++ "' found.")

/-- `format_specific_words`: one formatting-only replacement per word,
status lines joined; the document store is threaded through. -/
def formatSpecificWords (sess : Session) (writable : String → Bool)
    (writeErr : String → String) (store : DocStore) (filename : String)
    (wordList : List String) (a : FmtArgs) (matchCase wholeWords : Bool) :
    DocStore × String :=
  let res := wordList.foldl
    (fun (acc : DocStore × List String) word =>
      let r := enhancedSearchAndReplace sess writable writeErr acc.1 none
        (some filename) word word true a matchCase wholeWords
      (r.1, acc.2 ++ ["'" ++ word ++ "': " ++ r.2]))
    (store, [])
  (res.1, pyJoin "\n" res.2)

/-- `format_research_paper_terms`: the fixed four formatting passes; the
per-word status strings are computed and discarded. -/
def formatResearchPaperTerms (sess : Session) (writable : String → Bool)
    (writeErr : String → String) (store : DocStore) (filename : String) :
    DocStore × String :=
  let s1 := (formatSpecificWords sess writable writeErr store filename
    ["dolutegravir", "meloxicam", "dexamethasone", "DTG", "MLX", "DEX"]
    { bold := some true, color := some "blue" } true true).1
  let s2 := (formatSpecificWords sess writable writeErr s1 filename
    ["polycaprolactone", "PCL", "mesophase", "crystallinity"]
    { color := some "green" } true true).1
  let s3 := (formatSpecificWords sess writable writeErr s2 filename
    ["p < 0.05", "significant", "correlation", "ANOVA"]
    { italic := some true, color := some "red" } true true).1
  let s4 := (formatSpecificWords sess writable writeErr s3 filename
    ["25°C", "50°C"] { color := some "orange" } true true).1
  (s4, "Research paper terms formatted successfully!")

/-- `format_document`: the two-action dispatch wrapper. -/
def formatDocument (sess : Session) (writable : String → Bool)
    (writeErr : String → String) (action : String) (store : DocStore)
    (filename : String) (wordList : Option (List String)) (a : FmtArgs)
    (matchCase wholeWords : Bool) : DocStore × String :=
  if action ≠ "words" ∧ action ≠ "research" then
    (store, "Invalid action: " ++ action ++ ". Must be one of: words, research")
  else if action = "words" ∧ (wordList.getD []).isEmpty then
    (store, "Error: 'word_list' is required for action 'words'")
  else if action = "words" then
    formatSpecificWords sess writable writeErr store filename (wordList.getD []) a
      matchCase wholeWords
  else
    formatResearchPaperTerms sess writable writeErr store filename

/-- Claim C10: for every session, store and filename — a missing file
included — `format_research_paper_terms` and
`format_document(action="research")` return the fixed success string;
the per-word results of the underlying replacement calls (errors
included, as the concrete missing-file conjunct shows) never reach the
returned message. -/
theorem research_format_fixed_message :
    (∀ sess writable writeErr store filename,
      (formatResearchPaperTerms sess writable writeErr store filename).2 =
        "Research paper terms formatted successfully!") ∧
    (∀ sess writable writeErr store filename a matchCase wholeWords,
      (formatDocument sess writable writeErr "research" store filename none a
        matchCase wholeWords).2 =
        "Research paper terms formatted successfully!") ∧
    (enhancedSearchAndReplace ⟨[], none⟩ (fun _ => true) (fun _ => "") []
        none (some "missing") "dolutegravir" "dolutegravir" true
        { bold := some true, color := some "blue" } true true).2 =
      "Document missing.docx does not exist" ∧
    (formatResearchPaperTerms ⟨[], none⟩ (fun _ => true) (fun _ => "") []
        "missing").2 = "Research paper terms formatted successfully!" := by
  refine ⟨fun _ _ _ _ _ => rfl, fun sess writable writeErr store filename a mc ww => ?_,
    by decide, rfl⟩
  rfl

/- ## Path sanitization (`utils/file_utils.py: sanitize_file_path`)

`pathlib` on a POSIX host: `str(Path(p))` collapses empty and lone-dot
segments; `resolve()` is modelled lexically against a current working
directory given as absolute segments (no symlinks involved). -/

/-- Split a character list on a separator (keeps empty pieces). -/
def splitCharList (sep : Char) : List Char → List (List Char)
  | [] => [[]]
  | c :: rest =>
    let r := splitCharList sep rest
    if c = sep then [] :: r
    else
      match r with
      | h :: t => (c :: h) :: t
      | [] => [[c]]

/-- Raw slash-separated segments of a path string. -/
def pathRawSegs (p : String) : List String :=
  (splitCharList '/' p.data).map strOfChars

/-- `str(pathlib.Path(p))`: empty and `.` segments dropped, `..` kept. -/
def pathStr (p : String) : String :=
  let keep := (pathRawSegs p).filter (fun seg => seg ≠ "" ∧ seg ≠ ".")
  if pyStartsWith p "/" then "/" ++ pyJoin "/" keep
  else if keep.isEmpty then "." else pyJoin "/" keep

/-- Lexical normalization of absolute segments: `..` pops, empty and
`.` vanish. -/
def normalizeAbs (segs : List String) : List String :=
  segs.foldl
    (fun acc seg =>
      if seg = "" ∨ seg = "." then acc
      else if seg = ".." then acc.dropLast
      else acc ++ [seg])
    []

/-- `str(Path(p).resolve())` against a working directory `cwd` given as
absolute segments, with no symlinks on the way. -/
def resolveStr (cwd : List String) (p : String) : String :=
  let raw := pathRawSegs p
  let base := if pyStartsWith p "/" then raw else cwd ++ raw
  "/" ++ pyJoin "/" (normalizeAbs base)

/-- `PurePath.suffix` (lower-cased by the caller): the final extension
of the last segment, empty when the name has no dot past position 0. -/
def pathSuffix (p : String) : String :=
  let nm := (pathStr p).data.reverse.takeWhile (fun c => c ≠ '/')
  let ext := nm.takeWhile (fun c => c ≠ '.')
  if ext.length = nm.length then ""
  else if nm.length = ext.length + 1 ∧ nm.drop ext.length = ['.'] ∧
      (nm.drop (ext.length + 1)).isEmpty then ""
  else if (nm.drop (ext.length + 1)).isEmpty then ""
  else strOfChars ('.' :: ext.reverse)

/-- The dangerous characters rejected by `sanitize_file_path`. -/
def dangerousChars : List Char := ['<', '>', '|', '*', '?', '"']

/-- `sanitize_file_path(filepath, allowed_extensions)`; the returned
triple is `(is_valid, sanitized_path, error_message)`. -/
def sanitizeFilePath (cwd : List String) (filepath : String)
    (allowed : Option (List String)) : Bool × String × String :=
  if filepath = "" then (false, "", "Invalid file path provided")
  else
    let s := pathStr filepath
    let gate := pyIn ".." s || pyStartsWith s "/" || pyIn ":" s
    if gate ∧ pyIn ".." (resolveStr cwd filepath) then
      (false, "", "Path traversal detected in file path")
    else if s.data.any (fun c => dangerousChars.contains c) then
      (false, "", "Invalid characters in file path")
    else if ¬ (allowed.getD []).isEmpty ∧
        ¬ ((allowed.getD []).map pyLower).contains (pyLower (pathSuffix filepath)) then
      (false, "", "Invalid file extension. Allowed: " ++ pyJoin ", " (allowed.getD []))
    else
      (true, strOfChars (s.data.map (fun c => if c = '\\' then '/' else c)), "")

/-- Claim C4 evaluated on the code: a plain parent-directory traversal
is returned as valid, because `resolve()` eliminates the `..` segments
before the check looks for them; the empty-input and dangerous-character
rejections do hold, and the traversal branch fires only on names that
merely contain `..` as a substring. -/
theorem sanitize_path_traversal_accepted :
    sanitizeFilePath ["work"] "../secret.docx" none = (true, "../secret.docx", "") ∧
    resolveStr ["work"] "../secret.docx" = "/secret.docx" ∧
    sanitizeFilePath ["work"] "" none = (false, "", "Invalid file path provided") ∧
    sanitizeFilePath ["work"] "bad<name.docx" none =
      (false, "", "Invalid characters in file path") ∧
    sanitizeFilePath ["work"] "a..b.docx" none =
      (false, "", "Path traversal detected in file path") := by
  refine ⟨by decide, by decide, by decide, by decide, by decide⟩

/- ## SHA-256 (`hashlib.sha256(...).hexdigest()` over UTF-8 input)

Full byte-level implementation on `Nat`, word arithmetic mod 2^32. -/

/-- Modulus of 32-bit arithmetic. -/
def m32 : Nat := 4294967296

/-- 32-bit addition. -/
def add32 (a b : Nat) : Nat := (a + b) % m32

/-- 32-bit right rotation. -/
def rotr32 (n x : Nat) : Nat := ((x >>> n) ||| (x <<< (32 - n))) % m32

/-- The 64 SHA-256 round constants. -/
def sha256K : List Nat :=
  [1116352408, 1899447441, 3049323471, 3921009573, 961987163,
   1508970993, 2453635748, 2870763221, 3624381080, 310598401,
   607225278, 1426881987, 1925078388, 2162078206, 2614888103,
   3248222580, 3835390401, 4022224774, 264347078, 604807628,
   770255983, 1249150122, 1555081692, 1996064986, 2554220882,
   2821834349, 2952996808, 3210313671, 3336571891, 3584528711,
   113926993, 338241895, 666307205, 773529912, 1294757372,
   1396182291, 1695183700, 1986661051, 2177026350, 2456956037,
   2730485921, 2820302411, 3259730800, 3345764771, 3516065817,
   3600352804, 4094571909, 275423344, 430227734, 506948616,
   659060556, 883997877, 958139571, 1322822218, 1537002063,
   1747873779, 1955562222, 2024104815, 2227730452, 2361852424,
   2428436474, 2756734187, 3204031479, 3329325298]

/-- The initial SHA-256 state. -/
def sha256Init : List Nat :=
  [1779033703, 3144134277, 1013904242, 2773480762,
   1359893119, 2600822924, 528734635, 1541459225]

/-- Big-endian 64-bit byte expansion of the bit length. -/
def beBytes8 (n : Nat) : List Nat :=
  [n >>> 56 % 256, n >>> 48 % 256, n >>> 40 % 256, n >>> 32 % 256,
   n >>> 24 % 256, n >>> 16 % 256, n >>> 8 % 256, n % 256]

/-- SHA-256 padding: a `0x80` byte, zeros to 56 mod 64, the bit length. -/
def sha256Pad (msg : List Nat) : List Nat :=
  msg ++ [0x80] ++ List.replicate ((119 - msg.length % 64) % 64) 0 ++
    beBytes8 (8 * msg.length)

/-- Split into 64-byte chunks (fuel-driven). -/
def chunk64Aux : Nat → List Nat → List (List Nat)
  | 0, _ => []
  | _, [] => []
  | fuel + 1, l => l.take 64 :: chunk64Aux fuel (l.drop 64)

/-- All 64-byte chunks of a padded message. -/
def chunk64 (l : List Nat) : List (List Nat) := chunk64Aux l.length l

/-- Big-endian 32-bit words of a chunk. -/
def toWords : List Nat → List Nat
  | a :: b :: c :: d :: rest => (((a * 256 + b) * 256 + c) * 256 + d) :: toWords rest
  | _ => []

/-- Message-schedule sigma-0. -/
def smallSigma0 (x : Nat) : Nat := (rotr32 7 x) ^^^ (rotr32 18 x) ^^^ (x >>> 3)

/-- Message-schedule sigma-1. -/
def smallSigma1 (x : Nat) : Nat := (rotr32 17 x) ^^^ (rotr32 19 x) ^^^ (x >>> 10)

/-- One extension step of the message schedule. -/
def scheduleStep (w : List Nat) : List Nat :=
  let n := w.length
  w ++ [add32 (add32 (smallSigma1 (w.getD (n - 2) 0)) (w.getD (n - 7) 0))
    (add32 (smallSigma0 (w.getD (n - 15) 0)) (w.getD (n - 16) 0))]

/-- The 64-word message schedule of one chunk. -/
def fullSchedule (w16 : List Nat) : List Nat :=
  (List.range 48).foldl (fun w _ => scheduleStep w) w16

/-- Compression big-sigma-0. -/
def bigSigma0 (x : Nat) : Nat := (rotr32 2 x) ^^^ (rotr32 13 x) ^^^ (rotr32 22 x)

/-- Compression big-sigma-1. -/
def bigSigma1 (x : Nat) : Nat := (rotr32 6 x) ^^^ (rotr32 11 x) ^^^ (rotr32 25 x)

/-- The choice function. -/
def chFun (x y z : Nat) : Nat := (x &&& y) ^^^ ((x ^^^ 0xffffffff) &&& z)

/-- The majority function. -/
def majFun (x y z : Nat) : Nat := (x &&& y) ^^^ (x &&& z) ^^^ (y &&& z)

/-- One compression round on the eight-word state. -/
def compressRound (st : List Nat) (kw : Nat × Nat) : List Nat :=
  match st with
  | [a, b, c, d, e, f, g, h] =>
    let t1 := add32 h (add32 (bigSigma1 e) (add32 (chFun e f g) (add32 kw.1 kw.2)))
    let t2 := add32 (bigSigma0 a) (majFun a b c)
    [add32 t1 t2, a, b, c, add32 d t1, e, f, g]
  | _ => st

/-- Process one 64-byte chunk into the running hash state. -/
def processBlock (h : List Nat) (block : List Nat) : List Nat :=
  let w := fullSchedule (toWords block)
  let st := (sha256K.zip w).foldl compressRound h
  (h.zip st).map (fun p => add32 p.1 p.2)

/-- SHA-256 digest bytes of a byte sequence. -/
def sha256Bytes (msg : List Nat) : List Nat :=
  let hs := (chunk64 (sha256Pad msg)).foldl processBlock sha256Init
  hs.flatMap (fun w => [w >>> 24 % 256, w >>> 16 % 256, w >>> 8 % 256, w % 256])

/-- Lower-case hex digit. -/
def hexChar (n : Nat) : Char :=
  if n < 10 then Char.ofNat (48 + n) else Char.ofNat (87 + n)

/-- UTF-8 encoding of one code point (Python `str.encode()`). -/
def utf8Char (c : Char) : List Nat :=
  let n := c.toNat
  if n < 0x80 then [n]
  else if n < 0x800 then [0xc0 + n / 64, 0x80 + n % 64]
  else if n < 0x10000 then [0xe0 + n / 4096, 0x80 + (n / 64) % 64, 0x80 + n % 64]
  else [0xf0 + n / 262144, 0x80 + (n / 4096) % 64, 0x80 + (n / 64) % 64, 0x80 + n % 64]

/-- UTF-8 bytes of a string. -/
def utf8Bytes (s : String) : List Nat := s.data.flatMap utf8Char

/-- `hashlib.sha256(s.encode()).hexdigest()`. -/
def sha256Hex (s : String) : String :=
  strOfChars ((sha256Bytes (utf8Bytes s)).flatMap (fun b => [hexChar (b / 16), hexChar (b % 16)]))

/-- Standard test vectors pinning the implementation down. -/
theorem sha256Hex_test_vectors :
    sha256Hex "" = "e3b0c44298fc1c149afbf4c8996fb92427ae41e4649b934ca495991b7852b855" ∧
    sha256Hex "abc" = "ba7816bf8f01cfea414140de5dae2223b00361a396177a9cb410ff61f20015ad" := by
  constructor
  · decide
  · decide

/- ## Signature protection (`protection_tools.py: manage_protection`)

The `protect`+`signature` and `verify`+`signature` branches.  Two facts
about the source shape this model: the join separator is the
two-character sequence backslash-n (the Python literal is escaped), and
the module is imported as `import datetime`, so the call
`datetime.now()` inside the protect branch raises an `AttributeError`
(the correct spelling, used elsewhere in the same file, is
`datetime.datetime.now()`). -/

/-- The sidecar data of a `.signature` file. -/
structure SignatureData where
  signerName : String
  reason : String
  timestamp : String
  contentHash : String
deriving DecidableEq, Repr

/-- The on-disk protection state of one document: its paragraph texts
and the optional `.signature` sidecar. -/
structure SignState where
  paras : List String
  sidecar : Option SignatureData
deriving DecidableEq, Repr

/-- Text of the `AttributeError` CPython raises for `datetime.now()`
when `datetime` names the module rather than the class. -/
def datetimeNowError : String := "module 'datetime' has no attribute 'now'"

/-- The `protect`+`signature` branch of `manage_protection`: the content
hash over the backslash-n-joined paragraph texts and the resolved
reason are computed, but the `signature_data` dict literal then
evaluates `datetime.now().isoformat()`, which raises; the outer handler
turns the exception into the failure string before the sidecar is
written, the visible block is appended, or the document is saved, so
the protection state comes back unchanged. -/
def protectSignatureAction (st : SignState) (signerName : String)
    (signatureReason : Option String) : SignState × String :=
  let _contentHash := sha256Hex (pyJoin "\\n" st.paras)
  let _reason := match signatureReason with
    | some r => if r = "" then "Document approval" else r
    | none => "Document approval"
  let _signerName := signerName
  (st, "Failed to protect signature protection: " ++ datetimeNowError)

/-- The `verify`+`signature` branch: with no sidecar on disk it reports
that no signature exists; with one it recomputes the digest over the
current backslash-n-joined paragraph texts and compares it with the
stored hash. -/
def verifySignatureAction (st : SignState) (filename : String) : String :=
  match st.sidecar with
  | none => "No digital signature found on " ++ filename
  | some stored =>
    let currentContent := pyJoin "\\n" st.paras
    let currentHash := sha256Hex currentContent
    if currentHash = stored.contentHash then
      "Digital signature verified. Document has not been modified since signing by " ++
        stored.signerName
    else
      "Digital signature verification FAILED. Document has been modified since signing."

set_option maxRecDepth 16384 in
/-- Claim C3 evaluated on the code: the `protect`+`signature` branch
never completes -- after the hash is computed, `datetime.now()` on the
module raises, the call returns the failure string, and neither the
sidecar nor the visible block is written -- so verifying right after
signing reports that no signature exists, not that it is valid.  The
digest formula itself (computed before the raise, and recomputed by
verify against a sidecar that does exist) joins paragraph texts with
the two-character literal backslash-n rather than a newline, and verify
reports valid exactly on digest equality. -/
theorem signature_protect_crashes_before_sidecar :
    (protectSignatureAction ⟨["Hello world"], none⟩ "Alice" none).1 =
      ⟨["Hello world"], none⟩ ∧
    (protectSignatureAction ⟨["Hello world"], none⟩ "Alice" none).2 =
      "Failed to protect signature protection: module 'datetime' has no attribute 'now'" ∧
    verifySignatureAction (protectSignatureAction ⟨["Hello world"], none⟩ "Alice" none).1
        "report.docx" = "No digital signature found on report.docx" ∧
    pyJoin "\\n" ["A", "B"] = "A\\nB" ∧
    "A\\nB" ≠ "A\x0aB" ∧
    sha256Hex "A\\nB" ≠ sha256Hex "A\x0aB" ∧
    verifySignatureAction
        ⟨["A", "B"], some ⟨"Alice", "Document approval", "t", sha256Hex "A\\nB"⟩⟩
        "report.docx" =
      "Digital signature verified. Document has not been modified since signing by Alice" ∧
    verifySignatureAction
        ⟨["A", "B", "tampered"], some ⟨"Alice", "Document approval", "t", sha256Hex "A\\nB"⟩⟩
        "report.docx" =
      "Digital signature verification FAILED. Document has been modified since signing." := by
  refine ⟨rfl, by decide, by decide, by decide, by decide, by decide, by decide, by decide⟩

/- ## XML trees for track-changes markup (`review_tools.py`)

python-docx exposes the document as an lxml tree; the module builds
replacement nodes with `xml.etree.ElementTree` (`ET.Element`), and lxml
refuses to insert such foreign elements.  Every node therefore carries
the library it came from. -/

/-- Which XML library a node belongs to. -/
inductive XLib where
  | lxml
  | etree
deriving DecidableEq, Repr

mutual
/-- An XML element: library, tag, attributes, optional text content and
children (a mutually defined forest, so that all traversals are
structural). -/
inductive XNode where
  | elem (lib : XLib) (tag : String) (attrs : List (String × String))
      (content : Option String) (children : XForest)

/-- A list of XML elements. -/
inductive XForest where
  | nil
  | cons (n : XNode) (rest : XForest)
end

/-- Build a forest from a list of nodes. -/
def XForest.ofList : List XNode → XForest
  | [] => .nil
  | n :: rest => .cons n (XForest.ofList rest)

/-- Flatten a forest back to a list of nodes. -/
def XForest.toList : XForest → List XNode
  | .nil => []
  | .cons n rest => n :: rest.toList

/-- Tag of a node. -/
def XNode.tag : XNode → String
  | .elem _ t _ _ _ => t

/-- Attribute lookup (`elem.get(name)`). -/
def XNode.attr (n : XNode) (name : String) : Option String :=
  match n with
  | .elem _ _ attrs _ _ => attrs.lookup name

/-- Children of a node. -/
def XNode.kids : XNode → XForest
  | .elem _ _ _ _ ch => ch

/-- Whether the author filter of `manage_track_changes` lets an element
through: a falsy filter (absent or empty) matches everything, otherwise
the `w:author` attribute must equal the filter exactly. -/
def authorMatches (authorFilter : Option String) (n : XNode) : Bool :=
  match authorFilter with
  | none => true
  | some af => if af = "" then true else n.attr "w:author" == some af

/-- A `w:del` element passed by the author filter. -/
def isMatchingDel (authorFilter : Option String) (n : XNode) : Bool :=
  n.tag == "w:del" && authorMatches authorFilter n

/-- A `w:ins` element passed by the author filter. -/
def isMatchingIns (authorFilter : Option String) (n : XNode) : Bool :=
  n.tag == "w:ins" && authorMatches authorFilter n

mutual
/-- Remove every matching descendant element (with its content). -/
def removeMatching (p : XNode → Bool) : XNode → XNode
  | .elem l t a c ch => .elem l t a c (removeMatchingF p ch)

/-- `removeMatching` over a forest. -/
def removeMatchingF (p : XNode → Bool) : XForest → XForest
  | .nil => .nil
  | .cons n rest =>
    if p n then removeMatchingF p rest
    else .cons (removeMatching p n) (removeMatchingF p rest)
end

mutual
/-- Count the matching descendant elements (the `changes_processed`
tally of one pass). -/
def countMatching (p : XNode → Bool) : XNode → Nat
  | .elem _ _ _ _ ch => countMatchingF p ch

/-- `countMatching` over a forest. -/
def countMatchingF (p : XNode → Bool) : XForest → Nat
  | .nil => 0
  | .cons n rest =>
    (if p n then 1 else 0) + countMatching p n + countMatchingF p rest
end

/-- Append forests. -/
def XForest.append : XForest → XForest → XForest
  | .nil, o => o
  | .cons n rest, o => .cons n (rest.append o)

mutual
/-- Unwrap every matching element: splice its children into the parent
in place and drop the wrapper (the accept-insertion move). -/
def unwrapMatching (p : XNode → Bool) : XNode → XNode
  | .elem l t a c ch => .elem l t a c (unwrapMatchingF p ch)

/-- `unwrapMatching` over a forest. -/
def unwrapMatchingF (p : XNode → Bool) : XForest → XForest
  | .nil => .nil
  | .cons (.elem l t a c ch) rest =>
    if p (.elem l t a c ch) then (unwrapMatchingF p ch).append (unwrapMatchingF p rest)
    else .cons (.elem l t a c (unwrapMatchingF p ch)) (unwrapMatchingF p rest)
end

mutual
/-- Whether a node has a `w:delText` descendant (or is one). -/
def hasDelText : XNode → Bool
  | .elem _ t _ _ ch => t == "w:delText" || hasDelTextF ch

/-- `hasDelText` over a forest. -/
def hasDelTextF : XForest → Bool
  | .nil => false
  | .cons n rest => hasDelText n || hasDelTextF rest
end

/-- Stand-in for the text of the `TypeError` lxml raises when
`parent.insert` is handed an `xml.etree` element. -/
def lxmlForeignInsertMsg : String :=
  "Argument 'element' has incorrect type (expected lxml.etree._Element)"

mutual
/-- The reject-deletion pass: for each matching `w:del`, the source
builds plain runs with `ET.Element` (`xml.etree`) for every `w:delText`
child and inserts them into the lxml parent — lxml raises a `TypeError`
on the first such insert, so any matching deletion that carries deleted
text aborts the whole operation; a matching deletion with no deleted
text is simply removed. -/
def rejectDels (authorFilter : Option String) : XNode → Except String XNode
  | .elem l t a c ch =>
    match rejectDelsF authorFilter ch with
    | .error e => .error e
    | .ok ch' => .ok (.elem l t a c ch')

/-- `rejectDels` over a forest. -/
def rejectDelsF (authorFilter : Option String) : XForest → Except String XForest
  | .nil => .ok .nil
  | .cons (.elem l t a c ch) rest =>
    if isMatchingDel authorFilter (.elem l t a c ch) then
      if hasDelTextF ch then .error lxmlForeignInsertMsg
      else rejectDelsF authorFilter rest
    else
      match rejectDelsF authorFilter ch with
      | .error e => .error e
      | .ok ch' =>
        match rejectDelsF authorFilter rest with
        | .error e => .error e
        | .ok rest' => .ok (.cons (.elem l t a c ch') rest')
end

/-- The accept path of `manage_track_changes`: drop matching deletions,
then unwrap matching insertions. -/
def acceptChanges (authorFilter : Option String) (root : XNode) : XNode × Nat :=
  let afterDels := removeMatching (isMatchingDel authorFilter) root
  let delCount := countMatching (isMatchingDel authorFilter) root
  let insCount := countMatching (isMatchingIns authorFilter) afterDels
  (unwrapMatching (isMatchingIns authorFilter) afterDels, delCount + insCount)

/-- The reject path: drop matching insertions, then process matching
deletions (which aborts on the first deletion holding deleted text). -/
def rejectChanges (authorFilter : Option String) (root : XNode) :
    Except String (XNode × Nat) :=
  let afterIns := removeMatching (isMatchingIns authorFilter) root
  let insCount := countMatching (isMatchingIns authorFilter) root
  let delCount := countMatching (isMatchingDel authorFilter) afterIns
  match rejectDels authorFilter afterIns with
  | .error e => .error e
  | .ok done => .ok (done, insCount + delCount)

/-- Texts of the direct `w:r` children's `w:t` children of a paragraph
(python-docx `paragraph.text`). -/
def paraNodeText (p : XNode) : String :=
  String.join (p.kids.toList.filterMap (fun n =>
    if n.tag == "w:r" then
      some (String.join (n.kids.toList.filterMap (fun t =>
        if t.tag == "w:t" then
          match t with | .elem _ _ _ c _ => some (c.getD "")
        else none)))
    else none))

/-- Concatenated text of all body paragraphs. -/
def docText (body : XNode) : String :=
  String.join ((body.kids.toList.filter (fun n => n.tag == "w:p")).map paraNodeText)

/-- `manage_track_changes` from the loaded document on: action
validation, the accept or reject traversal, save (skipped when the
traversal raised — the caught exception turns into a failure string and
the on-disk document stays as it was). -/
def manageTrackChangesOnDoc (action : String) (changeIds : Option (List String))
    (authorFilter : Option String) (filename : String) (doc : XNode) :
    XNode × String :=
  if action = "" then (doc, "Error: action parameter is required")
  else if action ≠ "accept_all" ∧ action ≠ "reject_all" ∧
      action ≠ "accept_selective" ∧ action ≠ "reject_selective" then
    (doc, "Invalid action: " ++ action ++
      ". Must be one of: accept_all, reject_all, accept_selective, reject_selective")
  else if (action = "accept_selective" ∨ action = "reject_selective") ∧
      (changeIds.getD []).isEmpty ∧ ¬ pyTruthyOpt authorFilter then
    (doc, "Invalid parameter: either change_ids or author_filter is required for selective operations")
  else
    let verb := if action = "accept_all" ∨ action = "accept_selective"
      then "accepted" else "rejected"
    let result : Except String (XNode × Nat) :=
      if action = "accept_all" ∨ action = "accept_selective" then
        .ok (acceptChanges authorFilter doc)
      else rejectChanges authorFilter doc
    match result with
    | .error e =>
      (doc, "Failed to " ++
        strOfChars (action.data.map (fun c => if c = '_' then ' ' else c)) ++ ": " ++ e)
    | .ok (doc', count) =>
      let msg :=
        if pyTruthyOpt authorFilter then
          "All track changes by '" ++ authorFilter.getD "" ++ "' " ++ verb ++ " in " ++
            filename ++ ". " ++ toString count ++ " changes processed."
        else if action = "accept_all" ∨ action = "reject_all" then
          "All track changes " ++ verb ++ " in " ++ filename ++ ". " ++
            toString count ++ " changes processed."
        else
          "Selected track changes " ++ verb ++ " in " ++ filename ++ ". " ++
            toString count ++ " changes processed."
      (doc', msg)

/-- A body with one paragraph: a plain run `Base `, an insertion of
`added` by `X`, and a deletion of `removed` by `X`. -/
def trackDoc : XNode :=
  .elem .lxml "w:body" [] none (.ofList
    [.elem .lxml "w:p" [] none (.ofList
      [.elem .lxml "w:r" [] none (.ofList [.elem .lxml "w:t" [] (some "Base ") .nil]),
       .elem .lxml "w:ins" [("w:author", "X"), ("w:id", "1")] none (.ofList
         [.elem .lxml "w:r" [] none (.ofList [.elem .lxml "w:t" [] (some "added") .nil])]),
       .elem .lxml "w:del" [("w:author", "X"), ("w:id", "2")] none (.ofList
         [.elem .lxml "w:r" [] none
           (.ofList [.elem .lxml "w:delText" [] (some "removed") .nil])])])])

/-- Claim C7 evaluated on the code: `accept_all` behaves as claimed
(text keeps `added`, loses `removed`), but `reject_all` aborts with a
`TypeError` from inserting an `xml.etree` element into the lxml tree,
so the saved document is unchanged and its text never regains
`removed` — the reject half of the claim fails. -/
theorem track_changes_reject_fails :
    docText (manageTrackChangesOnDoc "accept_all" none none "d.docx" trackDoc).1 =
      "Base added" ∧
    pyIn "added" (docText (manageTrackChangesOnDoc "accept_all" none none "d.docx" trackDoc).1) = true ∧
    pyIn "removed" (docText (manageTrackChangesOnDoc "accept_all" none none "d.docx" trackDoc).1) = false ∧
    (manageTrackChangesOnDoc "reject_all" none none "d.docx" trackDoc).1 = trackDoc ∧
    (manageTrackChangesOnDoc "reject_all" none none "d.docx" trackDoc).2 =
      "Failed to reject all: " ++ lxmlForeignInsertMsg ∧
    pyIn "removed" (docText trackDoc) = false := by
  refine ⟨by decide, by decide, by decide, rfl, by decide, by decide⟩

/- ## Table of contents (`section_tools.py: generate_table_of_contents`) -/

/-- A paragraph as the ToC generator sees it: style name and text. -/
structure Para where
  style : String
  text : String
deriving DecidableEq, Repr

/-- Python `int(s)` on a plain digit string. -/
def parseNat? (s : String) : Option Nat :=
  if s ≠ "" ∧ s.data.all Char.isDigit then
    some (s.data.foldl (fun acc c => acc * 10 + (c.toNat - 48)) 0)
  else none

/-- Heading level from a style name (`int(style.name.split(' ')[1])`,
skipped on failure). -/
def headingLevel? (style : String) : Option Nat :=
  match (splitCharList ' ' style.data).map strOfChars with
  | _ :: second :: _ => parseNat? second
  | _ => none

/-- The headings collected by the generator: level, stripped text and
paragraph index, for every `Heading N` paragraph with `N ≤ max_level`. -/
def collectHeadings (maxLevel : Nat) (paras : List Para) : List (Nat × String × Nat) :=
  (paras.enum.filterMap (fun p =>
    if pyStartsWith p.2.style "Heading " then
      match headingLevel? p.2.style with
      | some lvl => if lvl ≤ maxLevel then some (lvl, pyStrip p.2.text, p.1) else none
      | none => none
    else none))

/-- Whether a paragraph text marks an existing ToC heading. -/
def isTocHeadingText (t : String) : Bool :=
  let lt := pyLower t
  pyStrip lt == "table of contents" || pyStrip lt == "contents" || pyStrip lt == "toc" ||
    pyIn "table of contents" lt

/-- One ToC entry paragraph: a default-styled paragraph indented four
spaces per level below one. -/
def tocEntry (h : Nat × String × Nat) : Para :=
  { style := "Normal", text := String.join (List.replicate (h.1 - 1) "    ") ++ h.2.1 }

/-- `generate_table_of_contents` from the loaded document on: collect
headings, update an existing ToC block (removing the following
paragraphs that contain some heading's text) or synthesize one over the
first paragraph, insert one entry per heading directly after the ToC
heading (each insertion at the same slot, so the block ends up in
reverse heading order), and append a page break in the created case. -/
def generateTocOnDoc (filename : String) (maxLevel : Nat) (updateExisting : Bool)
    (paras : List Para) : List Para × String :=
  let headings := collectHeadings maxLevel paras
  if headings.isEmpty then
    (paras, "No headings found in " ++ filename ++ ". Cannot generate table of contents.")
  else
    let entries := headings.map tocEntry
    match paras.findIdx? (fun p => isTocHeadingText p.text) with
    | some i =>
      let afterRemoval :=
        if updateExisting then
          let tailPart := paras.drop (i + 1)
          let k := (tailPart.takeWhile (fun p =>
            (pyStartsWith p.style "Heading " || p.style == "Normal") &&
              headings.any (fun h => pyIn h.2.1 p.text))).length
          paras.take (i + 1) ++ tailPart.drop k
        else paras
      (afterRemoval.take (i + 1) ++ entries.reverse ++ afterRemoval.drop (i + 1),
       "Table of contents " ++ (if updateExisting then "updated" else "created") ++
         " with " ++ toString headings.length ++ " entries (max level " ++
         toString maxLevel ++ ").")
    | none =>
      let base :=
        if paras.isEmpty then [({ style := "Heading 1", text := "Table of Contents" } : Para)]
        else paras.set 0 { style := "Heading 1", text := "Table of Contents" }
      let withEntries := base.take 1 ++ entries.reverse ++ base.drop 1
      (withEntries ++ [{ style := "Normal", text := "" }],
       "Table of contents " ++ (if updateExisting then "updated" else "created") ++
         " with " ++ toString headings.length ++ " entries (max level " ++
         toString maxLevel ++ ").")

/-- A document with a title paragraph and three level-1 headings. -/
def tocDoc0 : List Para :=
  [⟨"Normal", "My Paper"⟩, ⟨"Heading 1", "Alpha"⟩, ⟨"Normal", "alpha body"⟩,
   ⟨"Heading 1", "Beta"⟩, ⟨"Normal", "beta body"⟩, ⟨"Heading 1", "Gamma"⟩,
   ⟨"Normal", "gamma body"⟩]

/-- The document after generating a ToC twice (second run with
`update_existing=true`). -/
def tocDoc2 : List Para :=
  (generateTocOnDoc "doc.docx" 3 true (generateTocOnDoc "doc.docx" 3 true tocDoc0).1).1

/-- Claim C8 evaluated on the code: regenerating the ToC over the
three-heading document does avoid naive duplication (no six entries),
but the second run collects the synthesized `Table of Contents` heading
itself as a heading, so the rebuilt block holds four entry paragraphs —
a spurious self-entry included — and the removal pass has deleted the
real heading `Alpha` (its text matched an entry): the result is not one
entry per original heading. -/
theorem toc_update_not_idempotent :
    tocDoc2 =
      [⟨"Heading 1", "Table of Contents"⟩, ⟨"Normal", "Gamma"⟩, ⟨"Normal", "Beta"⟩,
       ⟨"Normal", "Alpha"⟩, ⟨"Normal", "Table of Contents"⟩, ⟨"Normal", "alpha body"⟩,
       ⟨"Heading 1", "Beta"⟩, ⟨"Normal", "beta body"⟩, ⟨"Heading 1", "Gamma"⟩,
       ⟨"Normal", "gamma body"⟩, ⟨"Normal", ""⟩] ∧
    (tocDoc2.filter (fun p => p.style == "Normal" &&
      (p.text == "Alpha" || p.text == "Beta" || p.text == "Gamma" ||
        p.text == "Table of Contents"))).length = 4 ∧
    (⟨"Heading 1", "Alpha"⟩ : Para) ∉ tocDoc2 ∧
    (⟨"Normal", "Table of Contents"⟩ : Para) ∈ tocDoc2 := by
  refine ⟨by decide, by decide, by decide, by decide⟩

/- ## Comment listing and review summary (`review_tools.py`) -/

/-- A character the comment-id class `[a-f0-9]` accepts. -/
def isHexLower (c : Char) : Bool := c.isDigit || ('a' ≤ c ∧ c ≤ 'f')

/-- Strip a literal prefix, returning the rest on success. -/
def dropPrefix? : List Char → List Char → Option (List Char)
  | [], cs => some cs
  | _ :: _, [] => none
  | p :: ps, c :: cs => if p = c then dropPrefix? ps cs else none

/-- Parse one comment marker at the head of the text, following the
`list` regex: bracket, `COMMENT`/`RESOLVED`, dash, eight hex digits,
` by `, a non-empty colon-free author, colon-space, a non-empty
bracket-free text, closing bracket.  Returns the fields (status, id,
author, text) and the remaining characters. -/
def parseMarkerAt (cs : List Char) : Option ((String × String × String × String) × List Char) :=
  let parseRest := fun (status : String) (cs1 : List Char) =>
    let idc := cs1.take 8
    if idc.length = 8 ∧ idc.all isHexLower then
      match dropPrefix? (" by ").data (cs1.drop 8) with
      | some cs2 =>
        let author := cs2.takeWhile (fun c => c ≠ ':')
        if author.isEmpty then none
        else
          match cs2.drop author.length with
          | ':' :: ' ' :: cs3 =>
            let txt := cs3.takeWhile (fun c => c ≠ ']')
            if txt.isEmpty then none
            else
              match cs3.drop txt.length with
              | ']' :: cs4 =>
                some ((status, strOfChars idc, strOfChars author, strOfChars txt), cs4)
              | _ => none
          | _ => none
      | none => none
    else none
  match dropPrefix? ("[COMMENT-").data cs with
  | some cs1 => parseRest "COMMENT" cs1
  | none =>
    match dropPrefix? ("[RESOLVED-").data cs with
    | some cs1 => parseRest "RESOLVED" cs1
    | none => none

/-- Left-to-right non-overlapping scan for comment markers
(`re.findall` over one paragraph text). -/
def scanComments : Nat → List Char → List (String × String × String × String)
  | 0, _ => []
  | _, [] => []
  | fuel + 1, c :: rest =>
    match parseMarkerAt (c :: rest) with
    | some (m, after) => m :: scanComments fuel after
    | none => scanComments fuel rest

/-- The `list` action of `manage_comments`: resolve the document, check
existence, scan every paragraph for markers and render the numbered
report (or the no-comments message). -/
def manageCommentsList (sess : Session) (fileExists : String → Bool)
    (getDoc : String → List String) (documentId filename : Option String) : String :=
  let r := resolveDocumentPath sess documentId filename
  if r.2 ≠ "" then r.2
  else
    let fn := r.1
    if ¬ fileExists fn then "Document " ++ fn ++ " does not exist"
    else
      let paras := getDoc fn
      let comments := paras.enum.flatMap (fun p =>
        (scanComments (p.2.data.length + 1) p.2.data).map (fun m => (m, p.1)))
      if comments.isEmpty then "No comments found in the document."
      else
        "Found " ++ toString comments.length ++ " comments:\n\n" ++
          String.join ((comments.enum).map (fun e =>
            let m := e.2.1
            let ind := if m.1 = "RESOLVED" then " (RESOLVED)" else ""
            "Comment " ++ toString (e.1 + 1) ++ " (ID: " ++ m.2.1 ++ ")" ++ ind ++ ":\n" ++
              "  Author: " ++ m.2.2.1 ++ "\n" ++
              "  Paragraph: " ++ toString e.2.2 ++ "\n" ++
              "  Text: " ++ m.2.2.2 ++ "\n\n"))

mutual
/-- Descendant elements with a tag, preorder (`findall('.//tag')`),
the node itself included when it carries the tag. -/
def findAllTagN (tag : String) : XNode → List XNode
  | .elem l t a c ch =>
    (if t == tag then [XNode.elem l t a c ch] else []) ++ findAllTagF tag ch

/-- `findAllTagN` over a forest. -/
def findAllTagF (tag : String) : XForest → List XNode
  | .nil => []
  | .cons n rest => findAllTagN tag n ++ findAllTagF tag rest
end

/-- Concatenated text content of the tagged descendants of a node. -/
def innerTextOf (tag : String) (n : XNode) : String :=
  String.join ((findAllTagF tag n.kids).map (fun t =>
    match t with | .elem _ _ _ c _ => c.getD ""))

/-- `extract_track_changes`: resolve, normalize the extension, check
existence, collect the insertion and deletion elements and render the
numbered report (or the no-changes message). -/
def extractTrackChangesTool (sess : Session) (fileExists : String → Bool)
    (getXml : String → XNode) (documentId filename : Option String) : String :=
  let r := resolveDocumentPath sess documentId filename
  if r.2 ≠ "" then r.2
  else
    let fn := ensureDocxExtension r.1
    if ¬ fileExists fn then "Document " ++ fn ++ " does not exist"
    else
      let root := getXml fn
      let mkInfo := fun (kind : String) (n : XNode) =>
        (kind, (n.attr "w:id").getD "Unknown", (n.attr "w:author").getD "Unknown",
         (n.attr "w:date").getD "Unknown",
         innerTextOf (if kind = "Insertion" then "w:t" else "w:delText") n)
      let changes := (findAllTagF "w:ins" root.kids).map (mkInfo "Insertion") ++
        (findAllTagF "w:del" root.kids).map (mkInfo "Deletion")
      if changes.isEmpty then "No track changes found in the document."
      else
        "Found " ++ toString changes.length ++ " track changes:\n\n" ++
          String.join (changes.enum.map (fun e =>
            let c := e.2
            "Change " ++ toString (e.1 + 1) ++ " (ID: " ++ c.2.1 ++ "):\n" ++
              "  Type: " ++ c.1 ++ "\n" ++
              "  Author: " ++ c.2.2.1 ++ "\n" ++
              "  Date: " ++ c.2.2.2.1 ++ "\n" ++
              "  Text: '" ++ c.2.2.2.2 ++ "'\n\n"))

/-- Fifty dashes. -/
def dashes50 : String := strOfChars (List.replicate 50 '-')

/-- `generate_review_summary`: after resolving its own filename, it
calls `manage_comments(filename, action="list")` and
`extract_track_changes(filename)` — both positionally, so the file path
lands in each callee's `document_id` parameter and is resolved against
the session registry, not the filesystem. -/
def generateReviewSummary (sess : Session) (fileExists : String → Bool)
    (getDoc : String → List String) (getXml : String → XNode)
    (documentId filename : Option String) : String :=
  let r := resolveDocumentPath sess documentId filename
  if r.2 ≠ "" then r.2
  else
    let fn := ensureDocxExtension r.1
    if ¬ fileExists fn then "Document " ++ fn ++ " does not exist"
    else
      let commentsResult := manageCommentsList sess fileExists getDoc (some fn) none
      let changesResult := extractTrackChangesTool sess fileExists getXml (some fn) none
      "=== REVIEW SUMMARY FOR " ++ pyBasename fn ++ " ===\n\n" ++
        "COMMENTS:\n" ++ dashes50 ++ "\n" ++ commentsResult ++ "\n\n" ++
        "TRACK CHANGES:\n" ++ dashes50 ++ "\n" ++ changesResult ++ "\n\n" ++
        "=== END REVIEW SUMMARY ===\n"

/-- One-paragraph plain document body used by the review-summary claim. -/
def plainBody : XNode :=
  .elem .lxml "w:body" [] none (.ofList
    [.elem .lxml "w:p" [] none (.ofList
      [.elem .lxml "w:r" [] none (.ofList [.elem .lxml "w:t" [] (some "Hello") .nil])])])

/-- The review summary of the existing, markup-free `report.docx` under
an empty session. -/
def reportSummary : String :=
  generateReviewSummary ⟨[], none⟩ (fun p => p == "report.docx")
    (fun _ => ["Hello"]) (fun _ => plainBody) none (some "report.docx")

set_option maxRecDepth 16384 in
/-- Claim C9 evaluated on the code: for an existing document given only
by filename, the two reports the summary should embed are the
no-comments and no-changes messages, but the summary instead embeds the
session-lookup error twice, because `generate_review_summary` passes
the file path positionally into each callee's `document_id` parameter. -/
theorem review_summary_embeds_session_errors :
    manageCommentsList ⟨[], none⟩ (fun p => p == "report.docx") (fun _ => ["Hello"])
        none (some "report.docx") = "No comments found in the document." ∧
    extractTrackChangesTool ⟨[], none⟩ (fun p => p == "report.docx") (fun _ => plainBody)
        none (some "report.docx") = "No track changes found in the document." ∧
    reportSummary =
      "=== REVIEW SUMMARY FOR report.docx ===\n\nCOMMENTS:\n" ++ dashes50 ++
        "\nError: Document ID 'report.docx' not found. No documents are currently open. Use open_document() first.\n\n" ++
        "TRACK CHANGES:\n" ++ dashes50 ++
        "\nError: Document ID 'report.docx' not found. No documents are currently open. Use open_document() first.\n\n" ++
        "=== END REVIEW SUMMARY ===\n" ∧
    pyIn "No comments found in the document." reportSummary = false ∧
    pyIn "No track changes found in the document." reportSummary = false ∧
    pyIn "Error: Document ID 'report.docx' not found" reportSummary = true := by
  refine ⟨by decide, by decide, by decide, by decide, by decide, by decide⟩
